import Mathlib

/-!
Verification of the nutrition-tracking backend (`backend/server.py`).

The Python source is shallowly embedded: floats become exact rationals (`ℚ`),
Python strings become `String`, the MongoDB collections become lists of
records, and every fallible handler returns `Except`.  Python's `round`
builtin (banker's rounding) is modelled by `pyRound`.
-/

set_option maxRecDepth 4000

set_option allowUnsafeReducibility true
attribute [local semireducible] Rat.add Rat.mul Rat.sub Rat.inv Rat.ofScientific

/-- Model of Python's builtin `round(q)`: round to the nearest integer,
ties going to the even integer. -/
def pyRound (q : ℚ) : ℤ :=
  let fl : ℤ := Int.fdiv q.num (q.den : ℤ)
  let frac : ℚ := q - (fl : ℚ)
  if frac < 1/2 then fl
  else if 1/2 < frac then fl + 1
  else if fl % 2 = 0 then fl else fl + 1

/-- Model of Python's `round(q, 1)` (one decimal place), as used by the
portion-adjustment handler. -/
def round1 (q : ℚ) : ℚ := (pyRound (q * 10) : ℚ) / 10

/-- Model of Python's `round(q, 0)` (zero decimal places), as used by the
profile handler. -/
def round0 (q : ℚ) : ℚ := (pyRound q : ℚ)

/-- Model of Python's `str.lower()` on the ASCII strings this backend
compares (gender and activity-level keys): lowercase each character. -/
def pyLower (s : String) : String := String.mk (s.data.map Char.toLower)

/-- `calculate_bmr` from `server.py`: Harris-Benedict formula, with the
"masculino" coefficients selected by a case-insensitive gender match and the
"feminino" coefficients used for every other gender string. -/
def calculate_bmr (weight height age : ℚ) (gender : String) : ℚ :=
  if pyLower gender = "masculino" then
    88.362 + 13.397 * weight + 4.799 * height - 5.677 * age
  else
    447.593 + 9.247 * weight + 3.098 * height - 4.330 * age

/-- `calculate_tdee` from `server.py`: multiplies the bmr by the activity
multiplier from the fixed table, defaulting to 1.2 for strings whose
lowercasing is not a key of the table. -/
def calculate_tdee (bmr : ℚ) (activity_level : String) : ℚ :=
  let key := pyLower activity_level
  bmr * (if key = "sedentario" then 1.2
    else if key = "leve" then 1.375
    else if key = "moderado" then 1.55
    else if key = "intenso" then 1.725
    else if key = "muito_intenso" then 1.9
    else 1.2)

/-- `calculate_daily_calorie_goal` from `server.py`. -/
def calculate_daily_calorie_goal (tdee current_weight goal_weight : ℚ) : ℚ :=
  if goal_weight < current_weight then tdee - 500
  else if goal_weight > current_weight then tdee + 300
  else tdee

/-- C1: `calculate_daily_calorie_goal` returns `tdee - 500` when the goal
weight is below the current weight, `tdee + 300` when it is above, and
exactly `tdee` when they are equal; by trichotomy on `ℚ` these three cases
are exhaustive and no clamping is applied. -/
theorem calorie_goal_trichotomy (tdee current_weight goal_weight : ℚ) :
    (goal_weight < current_weight →
      calculate_daily_calorie_goal tdee current_weight goal_weight = tdee - 500) ∧
    (current_weight < goal_weight →
      calculate_daily_calorie_goal tdee current_weight goal_weight = tdee + 300) ∧
    (goal_weight = current_weight →
      calculate_daily_calorie_goal tdee current_weight goal_weight = tdee) := by
  unfold calculate_daily_calorie_goal
  refine ⟨fun h => ?_, fun h => ?_, fun h => ?_⟩ <;>
    split_ifs <;> first | rfl | (exfalso; simp only [gt_iff_lt] at *; linarith)

/-- Witness for C1 at concrete inputs: tdee 2000 with weight 80 against goals
70, 90 and 80. -/
theorem calorie_goal_trichotomy_inst :
    calculate_daily_calorie_goal 2000 80 70 = 1500 ∧
    calculate_daily_calorie_goal 2000 80 90 = 2300 ∧
    calculate_daily_calorie_goal 2000 80 80 = 2000 :=
  ⟨by have h := (calorie_goal_trichotomy 2000 80 70).1 (by norm_num); linarith,
   by have h := (calorie_goal_trichotomy 2000 80 90).2.1 (by norm_num); linarith,
   (calorie_goal_trichotomy 2000 80 80).2.2 rfl⟩

/-- C7: `calculate_tdee` multiplies the bmr by the table multiplier keyed by
the lowercased activity string, by 1.2 for any string outside the table, and
in particular returns `bmr * 1.2` for the literal "sedentario". -/
theorem tdee_multiplier_table (bmr : ℚ) (activity_level : String) :
    (pyLower activity_level = "sedentario" → calculate_tdee bmr activity_level = bmr * 1.2) ∧
    (pyLower activity_level = "leve" → calculate_tdee bmr activity_level = bmr * 1.375) ∧
    (pyLower activity_level = "moderado" → calculate_tdee bmr activity_level = bmr * 1.55) ∧
    (pyLower activity_level = "intenso" → calculate_tdee bmr activity_level = bmr * 1.725) ∧
    (pyLower activity_level = "muito_intenso" → calculate_tdee bmr activity_level = bmr * 1.9) ∧
    (pyLower activity_level ∉
        (["sedentario", "leve", "moderado", "intenso", "muito_intenso"] : List String) →
      calculate_tdee bmr activity_level = bmr * 1.2) ∧
    calculate_tdee bmr "sedentario" = bmr * 1.2 := by
  unfold calculate_tdee
  refine ⟨fun h => ?_, fun h => ?_, fun h => ?_, fun h => ?_, fun h => ?_, fun h => ?_, rfl⟩ <;>
    simp_all

/-- Witness for C7: a bmr of 1000 with an uppercase activity string, with an
unrecognized string, and with the literal "sedentario". -/
theorem tdee_multiplier_table_inst :
    calculate_tdee 1000 "SEDENTARIO" = 1000 * 1.2 ∧
    calculate_tdee 1000 "crossfit" = 1000 * 1.2 ∧
    calculate_tdee 1000 "sedentario" = 1000 * 1.2 :=
  ⟨(tdee_multiplier_table 1000 "SEDENTARIO").1 (by decide),
   (tdee_multiplier_table 1000 "crossfit").2.2.2.2.2.1 (by decide),
   (tdee_multiplier_table 1000 "sedentario").2.2.2.2.2.2⟩

/-- Rounding sanity check: `pyRound` uses banker's rounding like Python's
`round`. -/
theorem pyRound_examples : pyRound (1/2) = 0 ∧ pyRound (3/2) = 2 ∧ pyRound (5/2) = 2 := by
  decide

/-- C8: for positive weight, height and age, `calculate_bmr` is strictly
increasing in weight and in height and strictly decreasing in age; the
statement quantifies over the gender string, so it covers the "masculino"
coefficient branch and the default (feminino) branch alike. -/
theorem bmr_strict_monotonicity (gender : String) :
    (∀ w1 w2 h a : ℚ, 0 < w1 → 0 < w2 → 0 < h → 0 < a → w1 < w2 →
      calculate_bmr w1 h a gender < calculate_bmr w2 h a gender) ∧
    (∀ w h1 h2 a : ℚ, 0 < w → 0 < h1 → 0 < h2 → 0 < a → h1 < h2 →
      calculate_bmr w h1 a gender < calculate_bmr w h2 a gender) ∧
    (∀ w h a1 a2 : ℚ, 0 < w → 0 < h → 0 < a1 → 0 < a2 → a1 < a2 →
      calculate_bmr w h a2 gender < calculate_bmr w h a1 gender) := by
  unfold calculate_bmr
  refine ⟨fun w1 w2 h a _ _ _ _ hlt => ?_, fun w h1 h2 a _ _ _ _ hlt => ?_,
    fun w h a1 a2 _ _ _ _ hlt => ?_⟩ <;>
    split_ifs <;> linarith

/-- Witness for C8 at concrete positive inputs, in both gender branches. -/
theorem bmr_strict_monotonicity_inst :
    calculate_bmr 70 170 30 "masculino" < calculate_bmr 80 170 30 "masculino" ∧
    calculate_bmr 70 160 30 "feminino" < calculate_bmr 70 170 30 "feminino" ∧
    calculate_bmr 70 170 40 "masculino" < calculate_bmr 70 170 30 "masculino" :=
  ⟨(bmr_strict_monotonicity "masculino").1 70 80 170 30
      (by norm_num) (by norm_num) (by norm_num) (by norm_num) (by norm_num),
   (bmr_strict_monotonicity "feminino").2.1 70 160 170 30
      (by norm_num) (by norm_num) (by norm_num) (by norm_num) (by norm_num),
   (bmr_strict_monotonicity "masculino").2.2 70 170 30 40
      (by norm_num) (by norm_num) (by norm_num) (by norm_num) (by norm_num)⟩

/-- `MealEntry` from `server.py`: one stored meal document.  Floats are
modelled as exact rationals. -/
structure MealEntry where
  meal_id : String
  user_id : String
  date : String
  time : String
  food_name : String
  portion_size : ℚ
  calories : ℚ
  protein : ℚ
  carbs : ℚ
  fats : ℚ
  image_base64 : Option String := none
deriving DecidableEq, Repr

/-- The five fields written back by the `$set` of the adjust handler. -/
structure UpdatedValues where
  portion_size : ℚ
  calories : ℚ
  protein : ℚ
  carbs : ℚ
  fats : ℚ
deriving DecidableEq, Repr

/-- Error classification of the HTTP handlers: `notFound` is a raised 404
`HTTPException`; `internal` is the generic `except Exception` branch that
re-raises any other exception as a 500; `validation` is a classified 4xx
validation failure (the handlers of `server.py` never produce it - it exists
so the spec's claimed error kind can be stated and compared). -/
inductive ApiError where
  | notFound (detail : String)
  | validation (detail : String)
  | internal (detail : String)
deriving DecidableEq, Repr

/-- Whether a handler outcome is a classified validation failure. -/
def isValidationFailure {α : Type} : Except ApiError α → Bool
  | .error (.validation _) => true
  | _ => false

/-- Model of `meals_collection.find_one(\x7b"meal_id": mid\x7d)`: first document
whose `meal_id` matches. -/
def find_meal (store : List MealEntry) (mid : String) : Option MealEntry :=
  store.find? (fun m => m.meal_id == mid)

/-- Model of `meals_collection.update_one(\x7b"meal_id": mid\x7d, \x7b"$set": vals\x7d)`:
overwrite the five adjusted fields of the first matching document. -/
def set_meal_values : List MealEntry → String → UpdatedValues → List MealEntry
  | [], _, _ => []
  | m :: rest, mid, vals =>
    if m.meal_id == mid then
      { m with portion_size := vals.portion_size, calories := vals.calories,
               protein := vals.protein, carbs := vals.carbs, fats := vals.fats } :: rest
    else m :: set_meal_values rest mid vals

/-- `adjust_portion` from `server.py`: look the meal up (404 when absent),
divide the new portion by the stored one, scale the four nutrients by that
factor rounding each to one decimal, and persist the five values.  A stored
`portion_size` of zero makes the Python division raise `ZeroDivisionError`,
which the handler's generic `except Exception` turns into a 500 - modelled by
the `internal` error branch. -/
def adjust_portion (store : List MealEntry) (mid : String) (new_portion_size : ℚ) :
    Except ApiError (List MealEntry × UpdatedValues) :=
  match find_meal store mid with
  | none => .error (.notFound "Refeição não encontrada")
  | some meal =>
    if meal.portion_size = 0 then
      .error (.internal "float division by zero")
    else
      let adjustment_factor := new_portion_size / meal.portion_size
      let vals : UpdatedValues :=
        { portion_size := new_portion_size,
          calories := round1 (meal.calories * adjustment_factor),
          protein := round1 (meal.protein * adjustment_factor),
          carbs := round1 (meal.carbs * adjustment_factor),
          fats := round1 (meal.fats * adjustment_factor) }
      .ok (set_meal_values store mid vals, vals)

/-- The meal collection as it stands after the adjust request completes:
unchanged whenever the handler raised. -/
def adjust_portion_db (store : List MealEntry) (mid : String) (new_portion_size : ℚ) :
    List MealEntry :=
  match adjust_portion store mid new_portion_size with
  | .ok (store', _) => store'
  | .error _ => store

/-- After `set_meal_values`, looking the meal id up returns the previously
found document with exactly the five adjusted fields overwritten. -/
theorem find_meal_set_meal_values (store : List MealEntry) (mid : String)
    (vals : UpdatedValues) (meal : MealEntry) (hfind : find_meal store mid = some meal) :
    find_meal (set_meal_values store mid vals) mid =
      some { meal with portion_size := vals.portion_size, calories := vals.calories,
                       protein := vals.protein, carbs := vals.carbs, fats := vals.fats } := by
  induction store with
  | nil => simp [find_meal, List.find?] at hfind
  | cons m rest ih =>
    by_cases hm : m.meal_id == mid
    · simp only [find_meal, List.find?, hm] at hfind
      cases hfind
      simp [find_meal, set_meal_values, hm, List.find?]
    · simp only [find_meal, List.find?, hm, Bool.false_eq_true, not_false_eq_true] at hfind
      have := ih (by simpa [find_meal] using hfind)
      simp only [set_meal_values, hm, Bool.false_eq_true, if_false, find_meal, List.find?]
      simpa [find_meal] using this

/-- C2: when the target meal exists and its stored portion is nonzero, the
adjust handler returns exactly the four nutrient magnitudes scaled by
`new_portion_size / portion_size` and rounded to one decimal, and the
persisted document is the stored meal with precisely the new portion size
and these four values overwritten. -/
theorem adjust_portion_scales (store : List MealEntry) (mid : String)
    (new_portion_size : ℚ) (meal : MealEntry)
    (hfind : find_meal store mid = some meal) (hnz : meal.portion_size ≠ 0) :
    adjust_portion store mid new_portion_size =
      .ok (set_meal_values store mid
            ⟨new_portion_size,
             round1 (meal.calories * (new_portion_size / meal.portion_size)),
             round1 (meal.protein * (new_portion_size / meal.portion_size)),
             round1 (meal.carbs * (new_portion_size / meal.portion_size)),
             round1 (meal.fats * (new_portion_size / meal.portion_size))⟩,
           ⟨new_portion_size,
            round1 (meal.calories * (new_portion_size / meal.portion_size)),
            round1 (meal.protein * (new_portion_size / meal.portion_size)),
            round1 (meal.carbs * (new_portion_size / meal.portion_size)),
            round1 (meal.fats * (new_portion_size / meal.portion_size))⟩) ∧
    find_meal (adjust_portion_db store mid new_portion_size) mid =
      some { meal with
             portion_size := new_portion_size,
             calories := round1 (meal.calories * (new_portion_size / meal.portion_size)),
             protein := round1 (meal.protein * (new_portion_size / meal.portion_size)),
             carbs := round1 (meal.carbs * (new_portion_size / meal.portion_size)),
             fats := round1 (meal.fats * (new_portion_size / meal.portion_size)) } := by
  have hmain : adjust_portion store mid new_portion_size =
      .ok (set_meal_values store mid
            ⟨new_portion_size,
             round1 (meal.calories * (new_portion_size / meal.portion_size)),
             round1 (meal.protein * (new_portion_size / meal.portion_size)),
             round1 (meal.carbs * (new_portion_size / meal.portion_size)),
             round1 (meal.fats * (new_portion_size / meal.portion_size))⟩,
           ⟨new_portion_size,
            round1 (meal.calories * (new_portion_size / meal.portion_size)),
            round1 (meal.protein * (new_portion_size / meal.portion_size)),
            round1 (meal.carbs * (new_portion_size / meal.portion_size)),
            round1 (meal.fats * (new_portion_size / meal.portion_size))⟩) := by
    unfold adjust_portion
    rw [hfind]
    simp [hnz]
  refine ⟨hmain, ?_⟩
  unfold adjust_portion_db
  rw [hmain]
  exact find_meal_set_meal_values store mid _ meal hfind

/-- Witness for C2, matching the spec's worked example: a meal of 200
calories at portion 100 adjusted to portion 150 is stored with 300.0
calories (and all four nutrients scaled by the same 1.5 ratio). -/
theorem adjust_portion_scales_inst :
    adjust_portion
        [⟨"m1", "u1", "2024-01-01", "12:00", "arroz", 100, 200, 10, 30, 5, none⟩]
        "m1" 150 =
      .ok ([⟨"m1", "u1", "2024-01-01", "12:00", "arroz", 150, 300, 15, 45, 7.5, none⟩],
           ⟨150, 300, 15, 45, 7.5⟩) := by
  have h := (adjust_portion_scales
    [⟨"m1", "u1", "2024-01-01", "12:00", "arroz", 100, 200, 10, 30, 5, none⟩]
    "m1" 150 ⟨"m1", "u1", "2024-01-01", "12:00", "arroz", 100, 200, 10, 30, 5, none⟩
    rfl (by norm_num)).1
  rw [h]
  rfl

/-- Counterexample to C5 as stated: with a stored portion of zero the adjust
handler does not produce a classified validation failure - it produces the
generic 500 branch (the `ZeroDivisionError` falls into `except Exception`). -/
theorem adjust_portion_zero_not_validation :
    isValidationFailure
        (adjust_portion
          [⟨"m1", "u1", "2024-01-01", "12:00", "arroz", 0, 200, 10, 30, 5, none⟩]
          "m1" 150) = false ∧
    adjust_portion
        [⟨"m1", "u1", "2024-01-01", "12:00", "arroz", 0, 200, 10, 30, 5, none⟩]
        "m1" 150 = .error (.internal "float division by zero") :=
  ⟨rfl, rfl⟩

/-- C5 amended: when the target meal exists with stored portion zero, the
operation fails with the generic internal 500-style error (not a crash and
not a classified validation failure), and the stored collection is left
unchanged. -/
theorem adjust_portion_zero_internal (store : List MealEntry) (mid : String)
    (new_portion_size : ℚ) (meal : MealEntry)
    (hfind : find_meal store mid = some meal) (hz : meal.portion_size = 0) :
    adjust_portion store mid new_portion_size = .error (.internal "float division by zero") ∧
    isValidationFailure (adjust_portion store mid new_portion_size) = false ∧
    adjust_portion_db store mid new_portion_size = store := by
  have herr : adjust_portion store mid new_portion_size =
      .error (.internal "float division by zero") := by
    unfold adjust_portion
    rw [hfind]
    simp [hz]
  refine ⟨herr, ?_, ?_⟩
  · rw [herr]; rfl
  · unfold adjust_portion_db
    rw [herr]

/-- Witness for the amended C5 at a concrete one-meal store. -/
theorem adjust_portion_zero_internal_inst :
    adjust_portion
        [⟨"m2", "u1", "2024-01-02", "12:00", "feijão", 0, 120, 8, 20, 1, none⟩]
        "m2" 80 = .error (.internal "float division by zero") ∧
    isValidationFailure
        (adjust_portion
          [⟨"m2", "u1", "2024-01-02", "12:00", "feijão", 0, 120, 8, 20, 1, none⟩]
          "m2" 80) = false ∧
    adjust_portion_db
        [⟨"m2", "u1", "2024-01-02", "12:00", "feijão", 0, 120, 8, 20, 1, none⟩]
        "m2" 80 =
      [⟨"m2", "u1", "2024-01-02", "12:00", "feijão", 0, 120, 8, 20, 1, none⟩] :=
  adjust_portion_zero_internal
    [⟨"m2", "u1", "2024-01-02", "12:00", "feijão", 0, 120, 8, 20, 1, none⟩]
    "m2" 80 ⟨"m2", "u1", "2024-01-02", "12:00", "feijão", 0, 120, 8, 20, 1, none⟩
    rfl rfl

/-- `UserProfile` from `server.py`: the request body and stored document of
the profile endpoint (`age` is an `int` in the source, cast into the float
arithmetic of the calculators). -/
structure UserProfile where
  user_id : String
  name : String
  age : ℤ
  gender : String
  height : ℚ
  weight : ℚ
  activity_level : String
  goal_weight : ℚ
  daily_calorie_goal : Option ℚ := none
  created_at : Option ℕ := none
deriving DecidableEq, Repr

/-- Model of `users_collection.update_one(\x7b"user_id": ...\x7d, \x7b"$set": dict\x7d,
upsert=True)` where the dict holds every field: replace the first matching
document, or append when none matches. -/
def upsert_profile : List UserProfile → UserProfile → List UserProfile
  | [], p => [p]
  | q :: rest, p =>
    if q.user_id == p.user_id then p :: rest else q :: upsert_profile rest p

/-- The body of the `POST /api/user/profile` response. -/
structure ProfileSaveResponse where
  daily_calorie_goal : ℚ
  bmr : ℚ
  tdee : ℚ
deriving DecidableEq, Repr

/-- `create_or_update_profile` from `server.py`: recompute bmr, tdee and the
daily calorie goal from the submitted attributes, overwrite
`daily_calorie_goal` (rounded to 0 decimals) and `created_at` in the stored
dict, and upsert it by `user_id`.  `now` stands for `datetime.now()`. -/
def create_or_update_profile (store : List UserProfile) (profile : UserProfile) (now : ℕ) :
    List UserProfile × ProfileSaveResponse :=
  let bmr := calculate_bmr profile.weight profile.height (profile.age : ℚ) profile.gender
  let tdee := calculate_tdee bmr profile.activity_level
  let daily_goal := calculate_daily_calorie_goal tdee profile.weight profile.goal_weight
  let stored := { profile with daily_calorie_goal := some (round0 daily_goal),
                               created_at := some now }
  (upsert_profile store stored, ⟨round0 daily_goal, round0 bmr, round0 tdee⟩)

/-- Model of `users_collection.find_one(\x7b"user_id": uid\x7d)`. -/
def find_profile (store : List UserProfile) (uid : String) : Option UserProfile :=
  store.find? (fun p => p.user_id == uid)

/-- After an upsert, looking up the written user id returns the written
document. -/
theorem find_profile_upsert (store : List UserProfile) (p : UserProfile) :
    find_profile (upsert_profile store p) p.user_id = some p := by
  induction store with
  | nil => simp [find_profile, upsert_profile, List.find?]
  | cons q rest ih =>
    by_cases hq : q.user_id == p.user_id
    · simp [upsert_profile, hq, find_profile, List.find?]
    · simp only [upsert_profile, hq, Bool.false_eq_true, if_false]
      simp only [find_profile, List.find?, hq]
      exact ih

/-- C6: every profile write stores a `daily_calorie_goal` equal to the value
recomputed through the bmr/tdee/goal pipeline from the submitted weight,
height, age, gender, activity level and goal weight, and the handler's
output is entirely independent of any `daily_calorie_goal` the caller put in
the request body. -/
theorem profile_goal_recomputed (store : List UserProfile) (profile : UserProfile) (now : ℕ) :
    (find_profile (create_or_update_profile store profile now).1 profile.user_id =
      some { profile with
             daily_calorie_goal := some (round0 (calculate_daily_calorie_goal
               (calculate_tdee
                 (calculate_bmr profile.weight profile.height (profile.age : ℚ) profile.gender)
                 profile.activity_level)
               profile.weight profile.goal_weight)),
             created_at := some now }) ∧
    (∀ g : Option ℚ,
      create_or_update_profile store { profile with daily_calorie_goal := g } now =
        create_or_update_profile store profile now) := by
  constructor
  · exact find_profile_upsert store _
  · intro g
    rfl

/-- Witness for C6 (the theorem's only binders are universally quantified
data, but instantiate it anyway at a concrete profile): the caller-supplied
goal of 9999 is ignored and overwritten by the recomputed value. -/
theorem profile_goal_recomputed_inst :
    find_profile
        (create_or_update_profile []
          ⟨"u1", "Ana", 30, "feminino", 165, 60, "leve", 55, some 9999, none⟩ 0).1 "u1" =
      some ⟨"u1", "Ana", 30, "feminino", 165, 60, "leve", 55, some 1403, some 0⟩ := by
  have h := (profile_goal_recomputed []
    ⟨"u1", "Ana", 30, "feminino", 165, 60, "leve", 55, some 9999, none⟩ 0).1
  rw [h]
  rfl

/-- Lexicographic (byte-wise) comparison of strings as character lists:
this is the string ordering the document store applies to the `date` field
in `sort("date", -1)`. -/
def charsLe : List Char → List Char → Bool
  | [], _ => true
  | _ :: _, [] => false
  | a :: as, b :: bs =>
    if a.toNat < b.toNat then true
    else if b.toNat < a.toNat then false
    else charsLe as bs

/-- `charsLe` is total. -/
theorem charsLe_total : ∀ x y : List Char, charsLe x y = true ∨ charsLe y x = true := by
  intro x
  induction x with
  | nil => intro y; left; rfl
  | cons a as ih =>
    intro y
    cases y with
    | nil => right; rfl
    | cons b bs =>
      simp only [charsLe]
      rcases Nat.lt_trichotomy a.toNat b.toNat with h | h | h
      · left; simp [h]
      · rcases ih bs with hc | hc
        · left
          rw [if_neg (by omega), if_neg (by omega)]
          exact hc
        · right
          rw [if_neg (by omega), if_neg (by omega)]
          exact hc
      · right; simp [h]

/-- `charsLe` is transitive. -/
theorem charsLe_trans : ∀ x y z : List Char,
    charsLe x y = true → charsLe y z = true → charsLe x z = true := by
  intro x
  induction x with
  | nil => intro y z _ _; rfl
  | cons a as ih =>
    intro y z hxy hyz
    cases y with
    | nil => simp [charsLe] at hxy
    | cons b bs =>
      cases z with
      | nil => simp [charsLe] at hyz
      | cons c cs =>
        simp only [charsLe] at hxy hyz ⊢
        rcases Nat.lt_trichotomy a.toNat b.toNat with h1 | h1 | h1
        · rcases Nat.lt_trichotomy b.toNat c.toNat with h2 | h2 | h2
          · rw [if_pos (by omega)]
          · rw [if_pos (by omega)]
          · rw [if_neg (by omega), if_pos (by omega)] at hyz
            simp at hyz
        · rw [if_neg (by omega), if_neg (by omega)] at hxy
          rcases Nat.lt_trichotomy b.toNat c.toNat with h2 | h2 | h2
          · rw [if_pos (by omega)]
          · rw [if_neg (by omega), if_neg (by omega)] at hyz
            rw [if_neg (by omega), if_neg (by omega)]
            exact ih bs cs hxy hyz
          · rw [if_neg (by omega), if_pos (by omega)] at hyz
            simp at hyz
        · rw [if_neg (by omega), if_pos (by omega)] at hxy
          simp at hxy

/-- One entry of the response of `GET /api/meals/history/...`: the meals of
one date string together with that group's nutrient totals. -/
structure DayGroup where
  date : String
  meals : List MealEntry
  total_calories : ℚ
  total_protein : ℚ
  total_carbs : ℚ
  total_fats : ℚ
deriving DecidableEq, Repr

/-- One iteration of the grouping loop of `get_meal_history`: insert the
meal into the group keyed by its literal `date` string, creating the group
(initialised with that meal's values) when the key is new.  Python dicts
keep first-insertion order, hence the append of new groups at the end. -/
def add_meal_to_history (hist : List DayGroup) (m : MealEntry) : List DayGroup :=
  if hist.any (fun g => g.date == m.date) then
    hist.map (fun g =>
      if g.date == m.date then
        { g with meals := g.meals ++ [m],
                 total_calories := g.total_calories + m.calories,
                 total_protein := g.total_protein + m.protein,
                 total_carbs := g.total_carbs + m.carbs,
                 total_fats := g.total_fats + m.fats }
      else g)
  else hist ++ [⟨m.date, [m], m.calories, m.protein, m.carbs, m.fats⟩]

/-- The grouping loop of `get_meal_history` over the retrieved meals. -/
def group_by_date (meals : List MealEntry) : List DayGroup :=
  meals.foldl add_meal_to_history []

/-- The document order produced by `sort("date", -1)`: descending in the
byte-lexicographic comparison of the literal date strings. -/
def mongoDateDesc (a b : MealEntry) : Prop := charsLe b.date.data a.date.data = true

instance : DecidableRel mongoDateDesc :=
  fun a b => inferInstanceAs (Decidable (charsLe b.date.data a.date.data = true))

instance : IsTotal MealEntry mongoDateDesc :=
  ⟨fun a b => charsLe_total b.date.data a.date.data⟩

instance : IsTrans MealEntry mongoDateDesc :=
  ⟨fun _ _ _ hab hbc => charsLe_trans _ _ _ hbc hab⟩

/-- The retrieval of `get_meal_history`:
`find(\x7b"user_id": uid\x7d).sort("date", -1).limit(days * 10)`. -/
def query_recent_meals (store : List MealEntry) (uid : String) (days : ℕ) : List MealEntry :=
  ((store.filter (fun m => m.user_id == uid)).insertionSort mongoDateDesc).take (days * 10)

/-- `get_meal_history` from `server.py`: retrieve, then group by the literal
date string. -/
def get_meal_history (store : List MealEntry) (uid : String) (days : ℕ) : List DayGroup :=
  group_by_date (query_recent_meals store uid days)

/-- Number of meal documents presented across all groups of a history
response. -/
def history_meals_count (groups : List DayGroup) : ℕ :=
  (groups.map (fun g => g.meals.length)).sum

/-- Invariant of the grouping loop after the meals of `p` were folded in:
every group holds exactly the meals of `p` carrying its literal date string
(in order), its four totals are the sums over its own members, the group
keys are pairwise distinct, and every processed meal's date has a group. -/
def GroupsOf (p : List MealEntry) (hist : List DayGroup) : Prop :=
  (∀ g ∈ hist,
    g.meals = p.filter (fun m => m.date == g.date) ∧
    g.total_calories = (g.meals.map MealEntry.calories).sum ∧
    g.total_protein = (g.meals.map MealEntry.protein).sum ∧
    g.total_carbs = (g.meals.map MealEntry.carbs).sum ∧
    g.total_fats = (g.meals.map MealEntry.fats).sum) ∧
  (hist.map DayGroup.date).Nodup ∧
  (∀ m ∈ p, m.date ∈ hist.map DayGroup.date)

/-- The grouping-loop invariant is preserved by one iteration. -/
theorem groupsOf_step (p : List MealEntry) (hist : List DayGroup) (m : MealEntry)
    (h : GroupsOf p hist) : GroupsOf (p ++ [m]) (add_meal_to_history hist m) := by
  obtain ⟨hmem, hnd, hcov⟩ := h
  unfold add_meal_to_history
  by_cases hany : hist.any (fun g => g.date == m.date)
  · rw [if_pos hany]
    refine ⟨?_, ?_, ?_⟩
    · intro g' hg'
      rw [List.mem_map] at hg'
      obtain ⟨g, hg, rfl⟩ := hg'
      obtain ⟨hgm, hgc, hgp, hgcb, hgf⟩ := hmem g hg
      by_cases hgd : g.date == m.date
      · rw [if_pos hgd]
        have hdates : m.date = g.date := (eq_of_beq hgd).symm
        refine ⟨?_, ?_, ?_, ?_, ?_⟩
        · show g.meals ++ [m] = (p ++ [m]).filter (fun x => x.date == g.date)
          rw [List.filter_append, ← hgm]
          simp [hdates]
        · show g.total_calories + m.calories = _
          simp [hgc]
        · show g.total_protein + m.protein = _
          simp [hgp]
        · show g.total_carbs + m.carbs = _
          simp [hgcb]
        · show g.total_fats + m.fats = _
          simp [hgf]
      · rw [if_neg hgd]
        have hdates : ¬ (m.date == g.date) = true := by
          intro hx
          exact hgd (by rw [eq_of_beq hx]; exact beq_self_eq_true g.date)
        refine ⟨?_, hgc, hgp, hgcb, hgf⟩
        rw [List.filter_append, ← hgm]
        simp [hdates]
    · have : (hist.map (fun g =>
          if g.date == m.date then
            { g with meals := g.meals ++ [m],
                     total_calories := g.total_calories + m.calories,
                     total_protein := g.total_protein + m.protein,
                     total_carbs := g.total_carbs + m.carbs,
                     total_fats := g.total_fats + m.fats }
          else g)).map DayGroup.date = hist.map DayGroup.date := by
        rw [List.map_map]
        refine List.map_congr_left (fun g _ => ?_)
        by_cases hgd : g.date == m.date
        · simp [Function.comp, hgd]
        · simp [Function.comp, hgd]
      rw [this]
      exact hnd
    · intro m' hm'
      have hdates : (hist.map (fun g =>
          if g.date == m.date then
            { g with meals := g.meals ++ [m],
                     total_calories := g.total_calories + m.calories,
                     total_protein := g.total_protein + m.protein,
                     total_carbs := g.total_carbs + m.carbs,
                     total_fats := g.total_fats + m.fats }
          else g)).map DayGroup.date = hist.map DayGroup.date := by
        rw [List.map_map]
        refine List.map_congr_left (fun g _ => ?_)
        by_cases hgd : g.date == m.date
        · simp [Function.comp, hgd]
        · simp [Function.comp, hgd]
      rw [hdates]
      rcases List.mem_append.mp hm' with hp | hm
      · exact hcov m' hp
      · have : m' = m := by simpa using hm
        subst this
        rw [List.any_eq_true] at hany
        obtain ⟨g, hg, hgd⟩ := hany
        rw [List.mem_map]
        exact ⟨g, hg, eq_of_beq hgd⟩
  · rw [if_neg hany]
    have hfresh : ∀ g ∈ hist, ¬ (g.date == m.date) = true := by
      intro g hg hx
      exact hany (List.any_eq_true.mpr ⟨g, hg, hx⟩)
    refine ⟨?_, ?_, ?_⟩
    · intro g' hg'
      rcases List.mem_append.mp hg' with hg | hnew
      · obtain ⟨hgm, hgc, hgp, hgcb, hgf⟩ := hmem g' hg
        refine ⟨?_, hgc, hgp, hgcb, hgf⟩
        rw [List.filter_append, ← hgm]
        have : ¬ (m.date == g'.date) = true := by
          intro hx
          exact hfresh g' hg (by rw [eq_of_beq hx]; exact beq_self_eq_true g'.date)
        simp [this]
      · have hg' : g' = ⟨m.date, [m], m.calories, m.protein, m.carbs, m.fats⟩ := by
          simpa using hnew
        subst hg'
        refine ⟨?_, by simp, by simp, by simp, by simp⟩
        show [m] = (p ++ [m]).filter (fun x => x.date == m.date)
        rw [List.filter_append]
        have hpnone : p.filter (fun x => x.date == m.date) = [] := by
          rw [List.filter_eq_nil_iff]
          intro x hx hxd
          have : x.date ∈ hist.map DayGroup.date := hcov x hx
          rw [List.mem_map] at this
          obtain ⟨g, hg, hgd⟩ := this
          refine hfresh g hg ?_
          rw [hgd, ← eq_of_beq hxd]
          exact beq_self_eq_true x.date
        rw [hpnone]
        simp
    · rw [List.map_append, List.nodup_append]
      refine ⟨hnd, by simp, ?_⟩
      intro d hd
      simp only [List.map_cons, List.map_nil, List.mem_cons, List.not_mem_nil, or_false]
      intro hdm
      subst hdm
      rw [List.mem_map] at hd
      obtain ⟨g, hg, hgd⟩ := hd
      exact hfresh g hg (by rw [hgd]; exact beq_self_eq_true m.date)
    · intro m' hm'
      rw [List.map_append]
      rcases List.mem_append.mp hm' with hp | hm
      · exact List.mem_append.mpr (Or.inl (hcov m' hp))
      · have : m' = m := by simpa using hm
        subst this
        refine List.mem_append.mpr (Or.inr ?_)
        simp

/-- The grouping-loop invariant carried through the whole fold. -/
theorem groupsOf_foldl (rest : List MealEntry) : ∀ (p : List MealEntry) (hist : List DayGroup),
    GroupsOf p hist → GroupsOf (p ++ rest) (rest.foldl add_meal_to_history hist) := by
  induction rest with
  | nil => intro p hist h; simpa using h
  | cons m ms ih =>
    intro p hist h
    have h2 := ih (p ++ [m]) (add_meal_to_history hist m) (groupsOf_step p hist m h)
    simpa [List.append_assoc] using h2

/-- `group_by_date` satisfies the grouping invariant for the full list. -/
theorem groupsOf_group_by_date (meals : List MealEntry) :
    GroupsOf meals (group_by_date meals) := by
  have h0 : GroupsOf [] [] := by
    refine ⟨?_, ?_, ?_⟩ <;> simp [List.Nodup]
  have := groupsOf_foldl meals [] [] h0
  simpa [group_by_date] using this

/-- Concrete meal dated "2024-01-01" for the history-grouping pin. -/
def mealJan01 : MealEntry := ⟨"h1", "u9", "2024-01-01", "08:00", "ovo", 50, 80, 6, 1, 5, none⟩

/-- Concrete meal dated "2024-01-1" (same calendar day, different string). -/
def mealJan1 : MealEntry := ⟨"h2", "u9", "2024-01-1", "09:00", "pão", 50, 130, 4, 25, 1, none⟩

/-- C9: the meal-history query groups the retrieved records by the literal
`date` string: each returned group holds exactly the retrieved meals whose
stored date string equals the group key, each group's four totals are the
sums over exactly its own members, group keys never repeat, and the two
date strings "2024-01-01" and "2024-01-1" produce two distinct groups, each
with its own sums. -/
theorem history_groups_by_literal_date (store : List MealEntry) (uid : String) (days : ℕ) :
    (∀ g ∈ get_meal_history store uid days,
      g.meals = (query_recent_meals store uid days).filter (fun m => m.date == g.date) ∧
      g.total_calories = (g.meals.map MealEntry.calories).sum ∧
      g.total_protein = (g.meals.map MealEntry.protein).sum ∧
      g.total_carbs = (g.meals.map MealEntry.carbs).sum ∧
      g.total_fats = (g.meals.map MealEntry.fats).sum) ∧
    ((get_meal_history store uid days).map DayGroup.date).Nodup ∧
    get_meal_history [mealJan01, mealJan1] "u9" 7 =
      [⟨"2024-01-1", [mealJan1], 130, 4, 25, 1⟩,
       ⟨"2024-01-01", [mealJan01], 80, 6, 1, 5⟩] := by
  obtain ⟨ha, hb, _⟩ := groupsOf_group_by_date (query_recent_meals store uid days)
  exact ⟨ha, hb, by decide⟩

/-- Witness for C9: the group keyed "2024-01-1" of the two-meal store holds
exactly the meal stored with that literal date string, with its own sums. -/
theorem history_groups_by_literal_date_inst :
    (⟨"2024-01-1", [mealJan1], 130, 4, 25, 1⟩ : DayGroup).meals =
      (query_recent_meals [mealJan01, mealJan1] "u9" 7).filter
        (fun m => m.date == (⟨"2024-01-1", [mealJan1], 130, 4, 25, 1⟩ : DayGroup).date) ∧
    (⟨"2024-01-1", [mealJan1], 130, 4, 25, 1⟩ : DayGroup).total_calories =
      (((⟨"2024-01-1", [mealJan1], 130, 4, 25, 1⟩ : DayGroup).meals).map
        MealEntry.calories).sum ∧
    (⟨"2024-01-1", [mealJan1], 130, 4, 25, 1⟩ : DayGroup).total_protein =
      (((⟨"2024-01-1", [mealJan1], 130, 4, 25, 1⟩ : DayGroup).meals).map
        MealEntry.protein).sum ∧
    (⟨"2024-01-1", [mealJan1], 130, 4, 25, 1⟩ : DayGroup).total_carbs =
      (((⟨"2024-01-1", [mealJan1], 130, 4, 25, 1⟩ : DayGroup).meals).map
        MealEntry.carbs).sum ∧
    (⟨"2024-01-1", [mealJan1], 130, 4, 25, 1⟩ : DayGroup).total_fats =
      (((⟨"2024-01-1", [mealJan1], 130, 4, 25, 1⟩ : DayGroup).meals).map
        MealEntry.fats).sum :=
  (history_groups_by_literal_date [mealJan01, mealJan1] "u9" 7).1
    ⟨"2024-01-1", [mealJan1], 130, 4, 25, 1⟩ (by decide)

/-- A meal for the history-retrieval scenarios, dated "2024-01-12". -/
def mkTestMeal (id : String) (time : String) : MealEntry :=
  ⟨id, "u1", "2024-01-12", time, "item", 100, 100, 10, 10, 5, none⟩

/-- Eleven same-day meals of one user: more than `days * 10` for `days = 1`. -/
def storeEleven : List MealEntry :=
  [mkTestMeal "a01" "01:00", mkTestMeal "a02" "02:00", mkTestMeal "a03" "03:00",
   mkTestMeal "a04" "04:00", mkTestMeal "a05" "05:00", mkTestMeal "a06" "06:00",
   mkTestMeal "a07" "07:00", mkTestMeal "a08" "08:00", mkTestMeal "a09" "09:00",
   mkTestMeal "a10" "10:00", mkTestMeal "a11" "11:00"]

/-- A meal dated far in the past. -/
def mealOld : MealEntry := ⟨"old1", "u1", "2020-01-01", "12:00", "sopa", 100, 150, 5, 20, 3, none⟩

/-- C10: the history retrieval takes at most `days * 10` documents of the
user, in descending order of the literal date string, with no calendar
filtering: its members are just user-owned store documents; with eleven
same-day meals and `days = 1` only ten are presented (one meal dated within
the window is absent), while a meal dated years outside the window is
presented. -/
theorem history_retrieval_limit (store : List MealEntry) (uid : String) (days : ℕ) :
    ((query_recent_meals store uid days).length ≤ days * 10) ∧
    List.Sorted mongoDateDesc (query_recent_meals store uid days) ∧
    (∀ m ∈ query_recent_meals store uid days, m ∈ store ∧ m.user_id == uid) ∧
    ((storeEleven.filter (fun m => m.user_id == "u1")).length = 11 ∧
      history_meals_count (get_meal_history storeEleven "u1" 1) = 10 ∧
      mkTestMeal "a11" "11:00" ∉ query_recent_meals storeEleven "u1" 1) ∧
    get_meal_history [mealOld] "u1" 7 = [⟨"2020-01-01", [mealOld], 150, 5, 20, 3⟩] := by
  refine ⟨?_, ?_, ?_, by decide, by decide⟩
  · rw [query_recent_meals, List.length_take]
    exact min_le_left _ _
  · exact List.Pairwise.sublist (List.take_sublist _ _)
      (List.sorted_insertionSort mongoDateDesc _)
  · intro m hm
    have h1 : m ∈ (store.filter (fun m => m.user_id == uid)).insertionSort mongoDateDesc :=
      (List.take_sublist _ _).subset hm
    have h2 : m ∈ store.filter (fun m => m.user_id == uid) :=
      (List.perm_insertionSort mongoDateDesc _).subset h1
    exact ⟨(List.mem_filter.mp h2).1, (List.mem_filter.mp h2).2⟩

/-- Witness for C10: the first of the eleven same-day meals is retrieved and
belongs to the store and the user. -/
theorem history_retrieval_limit_inst :
    mkTestMeal "a01" "01:00" ∈ storeEleven ∧ (mkTestMeal "a01" "01:00").user_id == "u1" :=
  (history_retrieval_limit storeEleven "u1" 1).2.2.1 (mkTestMeal "a01" "01:00") (by decide)

/-- JSON values as produced by `json.loads`: objects keep key order (Python
dicts preserve insertion order; a duplicate key overwrites in place). -/
inductive JVal where
  | null
  | bool (b : Bool)
  | num (q : ℚ)
  | str (s : String)
  | arr (elems : List JVal)
  | obj (fields : List (String × JVal))

/-- The fields of a JSON object, in insertion order. -/
abbrev JObj := List (String × JVal)

/-- Python `dict.get(k)` / `dict[k]`: the value of the first (and only)
binding of `k`. -/
def JObj.get (o : JObj) (k : String) : Option JVal :=
  (o.find? (fun p => p.1 == k)).map Prod.snd

/-- Python `dict[k] = v`: overwrite in place when the key exists (keeping
its position), append otherwise. -/
def JObj.set (o : JObj) (k : String) (v : JVal) : JObj :=
  if o.any (fun p => p.1 == k) then
    o.map (fun p => if p.1 == k then (k, v) else p)
  else o ++ [(k, v)]

/-- Errors of the `analyze_food_with_ai` normalization: a raised
`json.JSONDecodeError`, the explicit `ValueError` for an empty list, and a
`TypeError`/`AttributeError` from `str.join` or `sum` over ill-typed
values.  The handler maps every one of them onto the same generic 500. -/
inductive AiError where
  | parseError
  | valueError (msg : String)
  | typeError
deriving DecidableEq, Repr

/-- `item.get('food_name', '')` as used inside the join: requires the item
to be a dict and the present value to be a string (otherwise Python's
`' + '.join` raises). -/
def getFoodName : JVal → Except AiError String
  | .obj o =>
    match JObj.get o "food_name" with
    | none => .ok ""
    | some (.str s) => .ok s
    | some _ => .error .typeError
  | _ => .error .typeError

/-- `item.get(k, 0)` inside one of the `sum(...)` comprehensions: requires
the item to be a dict and the present value to be numeric (Python would
raise `TypeError` when adding). -/
def getNumField (k : String) : JVal → Except AiError ℚ
  | .obj o =>
    match JObj.get o k with
    | none => .ok 0
    | some (.num q) => .ok q
    | some (.bool b) => .ok (if b then 1 else 0)
    | some _ => .error .typeError
  | _ => .error .typeError

/-- The array-handling step of `analyze_food_with_ai` applied to the parsed
JSON value: an empty array raises the "Nenhum alimento identificado" error;
a one-element array yields its element unchanged; a longer array yields the
first element with `food_name` set to all names joined by " + " and each of
the five numeric fields set to its sum over all elements (missing fields
counting as 0); a non-array value is returned as the record directly. -/
def normalize_parsed (v : JVal) : Except AiError JVal :=
  match v with
  | .arr [] => .error (.valueError "Nenhum alimento identificado na resposta")
  | .arr (first :: rest) =>
    match rest with
    | [] => .ok first
    | _ :: _ =>
      match (first :: rest).mapM getFoodName with
      | .error e => .error e
      | .ok all_names =>
        match first with
        | .obj o0 =>
          let o1 := JObj.set o0 "food_name" (.str (String.intercalate " + " all_names))
          match (first :: rest).mapM (getNumField "portion_size") with
          | .error e => .error e
          | .ok ps =>
            let o2 := JObj.set o1 "portion_size" (.num ps.sum)
            match (first :: rest).mapM (getNumField "calories") with
            | .error e => .error e
            | .ok cs =>
              let o3 := JObj.set o2 "calories" (.num cs.sum)
              match (first :: rest).mapM (getNumField "protein") with
              | .error e => .error e
              | .ok prs =>
                let o4 := JObj.set o3 "protein" (.num prs.sum)
                match (first :: rest).mapM (getNumField "carbs") with
                | .error e => .error e
                | .ok cbs =>
                  let o5 := JObj.set o4 "carbs" (.num cbs.sum)
                  match (first :: rest).mapM (getNumField "fats") with
                  | .error e => .error e
                  | .ok fs => .ok (.obj (JObj.set o5 "fats" (.num fs.sum)))
        | _ => .error .typeError
  | other => .ok other

/-- The backtick character. -/
def backtick : Char := Char.ofNat 96

/-- The opening-brace character. -/
def lbrace : Char := Char.ofNat 123

/-- The closing-brace character. -/
def rbrace : Char := Char.ofNat 125

/-- The characters Python's `str.strip()` and the regex class `\s` treat as
whitespace (ASCII subset, all that these inputs can carry). -/
def isPySpace (c : Char) : Bool :=
  c == ' ' || c == '\t' || c == '\n' || c == '\r' ||
    c == Char.ofNat 11 || c == Char.ofNat 12

/-- Whether `p` is a prefix of `cs`. -/
def startsWithChars : List Char → List Char → Bool
  | [], _ => true
  | _ :: _, [] => false
  | p :: ps, c :: cs => p == c && startsWithChars ps cs

/-- The literal `` ```json `` . -/
def fenceJson : List Char := [backtick, backtick, backtick, 'j', 's', 'o', 'n']

/-- The literal `` ``` `` . -/
def fenceBare : List Char := [backtick, backtick, backtick]

/-- Python's `str.strip()`: drop whitespace from both ends. -/
def pyStrip (cs : List Char) : List Char :=
  ((cs.dropWhile isPySpace).reverse.dropWhile isPySpace).reverse

/-- One left-to-right pass of `re.sub(r'```json\s*|```\s*', '', text)`: at
each position the alternation first tries `` ```json `` plus trailing
whitespace, then a bare `` ``` `` plus trailing whitespace; on a match the
matched stretch is deleted, otherwise one character is kept.  Fuel is the
remaining length; every step consumes at least one character. -/
def subFenceFuel : Nat → List Char → List Char
  | 0, cs => cs
  | fuel + 1, cs =>
    if startsWithChars fenceJson cs then
      subFenceFuel fuel ((cs.drop 7).dropWhile isPySpace)
    else if startsWithChars fenceBare cs then
      subFenceFuel fuel ((cs.drop 3).dropWhile isPySpace)
    else
      match cs with
      | [] => []
      | c :: rest => c :: subFenceFuel fuel rest

/-- `re.sub(r'```json\s*|```\s*', '', text)` from `server.py`. -/
def subFence (cs : List Char) : List Char := subFenceFuel cs.length cs

/-- JSON inter-token whitespace. -/
def isJsonWs (c : Char) : Bool := c == ' ' || c == '\t' || c == '\n' || c == '\r'

/-- Skip JSON whitespace. -/
def skipWs (cs : List Char) : List Char := cs.dropWhile isJsonWs

/-- The leading decimal digits and the rest. -/
def splitDigits (cs : List Char) : List Char × List Char :=
  (cs.takeWhile Char.isDigit, cs.dropWhile Char.isDigit)

/-- Decimal digits to a natural number. -/
def digitsToNat (ds : List Char) : ℕ :=
  ds.foldl (fun n c => n * 10 + (c.toNat - 48)) 0

/-- Apply a JSON exponent suffix (the part after `e`/`E`). -/
def parseExpPart (v : ℚ) (cs : List Char) : Option ℚ × List Char :=
  let (negExp, cs1) : Bool × List Char :=
    match cs with
    | '+' :: rest => (false, rest)
    | '-' :: rest => (true, rest)
    | _ => (false, cs)
  let (ed, cs2) := splitDigits cs1
  if ed.isEmpty then (none, cs)
  else
    let e := digitsToNat ed
    (some (if negExp then v / 10 ^ e else v * 10 ^ e), cs2)

/-- Parse a JSON number (sign, integer part, optional fraction, optional
exponent) into an exact rational. -/
def parseNumber (cs0 : List Char) : Option (ℚ × List Char) :=
  let (neg, cs1) : Bool × List Char :=
    match cs0 with
    | '-' :: rest => (true, rest)
    | _ => (false, cs0)
  let (ip, cs2) := splitDigits cs1
  if ip.isEmpty then none
  else
    let (fracVal, cs3) : Option ℚ × List Char :=
      match cs2 with
      | '.' :: rest =>
        let (fp, rest') := splitDigits rest
        if fp.isEmpty then (none, cs2)
        else (some ((digitsToNat ip : ℚ) + (digitsToNat fp : ℚ) / (10 : ℚ) ^ fp.length), rest')
      | _ => (some ((digitsToNat ip : ℚ)), cs2)
    match fracVal with
    | none => none
    | some v =>
      let (expVal, cs4) : Option ℚ × List Char :=
        match cs3 with
        | 'e' :: rest => parseExpPart v rest
        | 'E' :: rest => parseExpPart v rest
        | _ => (some v, cs3)
      match expVal with
      | none => none
      | some v' => some ((if neg then -v' else v'), cs4)

/-- Parse the body of a JSON string (the opening quote already consumed),
with the escape sequences `json.loads` accepts on these inputs. -/
def parseStringBody : List Char → List Char → Option (String × List Char)
  | [], _ => none
  | c :: rest, acc =>
    if c == '"' then some (String.mk acc.reverse, rest)
    else if c == '\\' then
      match rest with
      | [] => none
      | e :: rest' =>
        let esc : Option Char :=
          if e == '"' then some '"'
          else if e == '\\' then some '\\'
          else if e == '/' then some '/'
          else if e == 'n' then some '\n'
          else if e == 't' then some '\t'
          else if e == 'r' then some '\r'
          else if e == 'b' then some (Char.ofNat 8)
          else if e == 'f' then some (Char.ofNat 12)
          else none
        match esc with
        | none => none
        | some ch => parseStringBody rest' (ch :: acc)
    else parseStringBody rest (c :: acc)

mutual

/-- Parse one JSON value (leading whitespace allowed).  Fuel only bounds
the recursion depth; it is chosen large enough at the top level. -/
def parseValue : Nat → List Char → Option (JVal × List Char)
  | 0, _ => none
  | fuel + 1, cs0 =>
    let cs := skipWs cs0
    match cs with
    | [] => none
    | c :: rest =>
      if c == '"' then
        match parseStringBody rest [] with
        | some (s, r) => some (.str s, r)
        | none => none
      else if c == '[' then
        match skipWs rest with
        | c2 :: r2 =>
          if c2 == ']' then some (.arr [], r2)
          else parseArrayItems fuel (skipWs rest) []
        | [] => none
      else if c == lbrace then
        match skipWs rest with
        | c2 :: r2 =>
          if c2 == rbrace then some (.obj [], r2)
          else parseObjItems fuel (skipWs rest) []
        | [] => none
      else
        match cs with
        | 't' :: 'r' :: 'u' :: 'e' :: r => some (.bool true, r)
        | 'f' :: 'a' :: 'l' :: 's' :: 'e' :: r => some (.bool false, r)
        | 'n' :: 'u' :: 'l' :: 'l' :: r => some (.null, r)
        | _ =>
          match parseNumber cs with
          | some (q, r) => some (.num q, r)
          | none => none

/-- Parse the comma-separated items of an array (after `[`). -/
def parseArrayItems : Nat → List Char → List JVal → Option (JVal × List Char)
  | 0, _, _ => none
  | fuel + 1, cs, acc =>
    match parseValue fuel cs with
    | none => none
    | some (v, rest) =>
      match skipWs rest with
      | ',' :: r2 => parseArrayItems fuel r2 (v :: acc)
      | ']' :: r2 => some (.arr (v :: acc).reverse, r2)
      | _ => none

/-- Parse the `"key": value` members of an object (after the brace).  A
repeated key overwrites in place, as a Python dict does. -/
def parseObjItems : Nat → List Char → JObj → Option (JVal × List Char)
  | 0, _, _ => none
  | fuel + 1, cs, acc =>
    match skipWs cs with
    | c :: rest =>
      if c == '"' then
        match parseStringBody rest [] with
        | none => none
        | some (k, r1) =>
          match skipWs r1 with
          | ':' :: r2 =>
            match parseValue fuel r2 with
            | none => none
            | some (v, r3) =>
              match skipWs r3 with
              | ',' :: r4 => parseObjItems fuel r4 (JObj.set acc k v)
              | c2 :: r4 =>
                if c2 == rbrace then some (.obj (JObj.set acc k v), r4) else none
              | [] => none
          | _ => none
      else none
    | [] => none

end

/-- `json.loads` on the cleaned response text: parse one value and require
only whitespace to remain. -/
def json_loads (cs : List Char) : Option JVal :=
  match parseValue (2 * cs.length + 8) cs with
  | some (v, rest) => if (skipWs rest).isEmpty then some v else none
  | none => none

/-- The response-normalization pipeline of `analyze_food_with_ai`, from the
raw response text onward: strip, remove markdown fences when the text
starts with one, `json.loads` (a failure propagates as the handler's
generic analysis error), then the array-merging step. -/
def parse_ai_response (response_text : String) : Except AiError JVal :=
  let t := pyStrip response_text.data
  let t2 := if startsWithChars fenceBare t then subFence t else t
  match json_loads t2 with
  | none => .error .parseError
  | some v => normalize_parsed v

/-- C3: on a parsed JSON array the normalizer fails with the "no food
identified" `ValueError` (an error result, not a crash) when the array is
empty; returns the sole element unchanged when there is exactly one; and
for two or more elements returns the first element with `food_name`
replaced by all names joined with " + " and each of the five numeric
fields replaced by its sum over all elements - the `mapM` premises state
exactly that each element yields its `get(field, default)` value, a missing
field contributing the default 0. -/
theorem normalizer_array_cases :
    (normalize_parsed (.arr []) =
      .error (.valueError "Nenhum alimento identificado na resposta")) ∧
    (∀ x : JVal, normalize_parsed (.arr [x]) = .ok x) ∧
    (∀ (o0 : JObj) (y : JVal) (ys : List JVal)
       (all_names : List String) (ps cs prs cbs fs : List ℚ),
      (JVal.obj o0 :: y :: ys).mapM getFoodName = .ok all_names →
      (JVal.obj o0 :: y :: ys).mapM (getNumField "portion_size") = .ok ps →
      (JVal.obj o0 :: y :: ys).mapM (getNumField "calories") = .ok cs →
      (JVal.obj o0 :: y :: ys).mapM (getNumField "protein") = .ok prs →
      (JVal.obj o0 :: y :: ys).mapM (getNumField "carbs") = .ok cbs →
      (JVal.obj o0 :: y :: ys).mapM (getNumField "fats") = .ok fs →
      normalize_parsed (.arr (JVal.obj o0 :: y :: ys)) =
        .ok (.obj (JObj.set (JObj.set (JObj.set (JObj.set (JObj.set (JObj.set o0
          "food_name" (.str (String.intercalate " + " all_names)))
          "portion_size" (.num ps.sum))
          "calories" (.num cs.sum))
          "protein" (.num prs.sum))
          "carbs" (.num cbs.sum))
          "fats" (.num fs.sum)))) := by
  refine ⟨rfl, fun x => rfl, ?_⟩
  intro o0 y ys all_names ps cs prs cbs fs h1 h2 h3 h4 h5 h6
  simp only [normalize_parsed, h1, h2, h3, h4, h5, h6]

/-- Witness for C3, matching the spec's worked example: a singleton array
returns its element, and two items named "A" and "B" with calories 100 and
150 merge into food_name "A + B" with calories 250 (the other numeric
fields, absent from both items, sum to 0). -/
theorem normalizer_array_cases_inst :
    normalize_parsed (.arr [.obj [("food_name", .str "A"), ("calories", .num 100)]]) =
      .ok (.obj [("food_name", .str "A"), ("calories", .num 100)]) ∧
    normalize_parsed (.arr
        [.obj [("food_name", .str "A"), ("calories", .num 100)],
         .obj [("food_name", .str "B"), ("calories", .num 150)]]) =
      .ok (.obj [("food_name", .str "A + B"), ("calories", .num 250),
                 ("portion_size", .num 0), ("protein", .num 0),
                 ("carbs", .num 0), ("fats", .num 0)]) := by
  constructor
  · exact normalizer_array_cases.2.1 (.obj [("food_name", .str "A"), ("calories", .num 100)])
  · have h := normalizer_array_cases.2.2
      [("food_name", .str "A"), ("calories", .num 100)]
      (.obj [("food_name", .str "B"), ("calories", .num 150)]) []
      ["A", "B"] [0, 0] [100, 150] [0, 0] [0, 0] [0, 0]
      rfl rfl rfl rfl rfl rfl
    exact h.trans (by rfl)

/-- Counterexample to C4 as stated: a fenced response whose fence carries
the language tag "python" does not have its fence markers fully removed -
only the backticks go, the tag text stays - so the remaining text is not
parseable JSON and the normalization fails instead of producing a record. -/
theorem fence_other_tag_fails :
    parse_ai_response "```python\n\x7b\"food_name\":\"rice\",\"calories\":200\x7d\n```" =
      .error .parseError := rfl

/-- A matching pattern is no longer than the text. -/
theorem startsWithChars_length : ∀ p cs : List Char,
    startsWithChars p cs = true → p.length ≤ cs.length := by
  intro p
  induction p with
  | nil => intro cs _; simp
  | cons a ps ih =>
    intro cs h
    cases cs with
    | nil => simp [startsWithChars] at h
    | cons c rest =>
      simp only [startsWithChars, Bool.and_eq_true] at h
      have := ih rest h.2
      simp only [List.length_cons]
      omega

/-- The fuel argument of `subFenceFuel` is irrelevant once it covers the
length of the text. -/
theorem subFenceFuel_fuel_irrel (f1 : ℕ) : ∀ (cs : List Char) (f2 : ℕ),
    cs.length ≤ f1 → cs.length ≤ f2 → subFenceFuel f1 cs = subFenceFuel f2 cs := by
  induction f1 with
  | zero =>
    intro cs f2 h1 _
    have hnil : cs = [] := List.length_eq_zero.mp (Nat.le_zero.mp h1)
    subst hnil
    cases f2 <;> rfl
  | succ f1 ih =>
    intro cs f2 h1 h2
    cases cs with
    | nil => cases f2 <;> rfl
    | cons c rest =>
      cases f2 with
      | zero => simp at h2
      | succ f2 =>
        simp only [List.length_cons] at h1 h2
        by_cases hj : startsWithChars fenceJson (c :: rest) = true
        · have hlen : 7 ≤ (c :: rest).length := by
            simpa [fenceJson] using startsWithChars_length fenceJson (c :: rest) hj
          have hd : (((c :: rest).drop 7).dropWhile isPySpace).length ≤
              (c :: rest).length - 7 := by
            have := (List.dropWhile_sublist (l := (c :: rest).drop 7) isPySpace).length_le
            simpa [List.length_drop] using this
          simp only [List.length_cons] at hlen hd
          simp only [subFenceFuel, hj, if_true]
          exact ih _ f2 (by omega) (by omega)
        · by_cases hb : startsWithChars fenceBare (c :: rest) = true
          · have hlen : 3 ≤ (c :: rest).length := by
              simpa [fenceBare] using startsWithChars_length fenceBare (c :: rest) hb
            have hd : (((c :: rest).drop 3).dropWhile isPySpace).length ≤
                (c :: rest).length - 3 := by
              have := (List.dropWhile_sublist (l := (c :: rest).drop 3) isPySpace).length_le
              simpa [List.length_drop] using this
            simp only [List.length_cons] at hlen hd
            simp only [subFenceFuel, hj, hb, if_true, if_false, Bool.false_eq_true]
            exact ih _ f2 (by omega) (by omega)
          · simp only [subFenceFuel, hj, hb, if_false, Bool.false_eq_true]
            have := ih rest f2 (by omega) (by omega)
            rw [this]

/-- A pattern is a prefix of itself followed by anything. -/
theorem startsWithChars_self_append (p u : List Char) :
    startsWithChars p (p ++ u) = true := by
  induction p with
  | nil => rfl
  | cons c cs ih => simp [startsWithChars, ih]

/-- Removing a shared prefix from pattern and text. -/
theorem startsWithChars_append_both (p q u : List Char) :
    startsWithChars (p ++ q) (p ++ u) = startsWithChars q u := by
  induction p with
  | nil => rfl
  | cons c cs ih => simp [startsWithChars, ih]

/-- One step of `subFenceFuel` on a successor fuel, spelled out. -/
theorem subFenceFuel_succ (f : ℕ) (cs : List Char) :
    subFenceFuel (f + 1) cs =
      if startsWithChars fenceJson cs then
        subFenceFuel f ((cs.drop 7).dropWhile isPySpace)
      else if startsWithChars fenceBare cs then
        subFenceFuel f ((cs.drop 3).dropWhile isPySpace)
      else
        match cs with
        | [] => []
        | c :: rest => c :: subFenceFuel f rest := rfl

/-- When the regex scan stands on a stretch of backtick-free characters it
copies them unchanged: neither alternative of the regex can match there. -/
theorem subFence_copy_append (xs : List Char) : ∀ rest : List Char,
    (∀ c ∈ xs, (c == backtick) = false) →
    subFence (xs ++ rest) = xs ++ subFence rest := by
  induction xs with
  | nil => intro rest _; rfl
  | cons c xs ih =>
    intro rest h
    have hc : (c == backtick) = false := h c (by simp)
    have hc' : (backtick == c) = false := by
      rw [beq_eq_false_iff_ne] at hc ⊢
      exact fun h' => hc h'.symm
    have hj : startsWithChars fenceJson (c :: (xs ++ rest)) = false := by
      simp [fenceJson, startsWithChars, hc']
    have hb : startsWithChars fenceBare (c :: (xs ++ rest)) = false := by
      simp [fenceBare, startsWithChars, hc']
    show subFenceFuel ((xs ++ rest).length + 1) (c :: (xs ++ rest)) = _
    rw [subFenceFuel_succ, if_neg (by simp [hj]), if_neg (by simp [hb])]
    show c :: subFence (xs ++ rest) = c :: xs ++ subFence rest
    rw [ih rest (fun d hd => h d (by simp [hd]))]
    rfl

/-- The scan at an occurrence of `` ```json ``: that alternative matches
first, deleting the seven characters and the following whitespace. -/
theorem subFence_json_step (u : List Char) :
    subFence (fenceJson ++ u) = subFence (u.dropWhile isPySpace) := by
  have hlen : (fenceJson ++ u).length = u.length + 6 + 1 := by
    simp [fenceJson]
  have hdrop : (fenceJson ++ u).drop 7 = u := by
    simp [fenceJson]
  show subFenceFuel (fenceJson ++ u).length (fenceJson ++ u) = _
  rw [hlen, subFenceFuel_succ, if_pos (startsWithChars_self_append fenceJson u), hdrop]
  refine subFenceFuel_fuel_irrel _ _ _ ?_ le_rfl
  have := (List.dropWhile_sublist (l := u) isPySpace).length_le
  omega

/-- The scan at a bare `` ``` `` not followed by `json`: the second
alternative matches, deleting the backticks and the following whitespace. -/
theorem subFence_bare_step (u : List Char)
    (hnj : startsWithChars ['j', 's', 'o', 'n'] u = false) :
    subFence (fenceBare ++ u) = subFence (u.dropWhile isPySpace) := by
  have hlen : (fenceBare ++ u).length = u.length + 2 + 1 := by
    simp [fenceBare]
  have hj : startsWithChars fenceJson (fenceBare ++ u) = false := by
    have heq : fenceJson = fenceBare ++ ['j', 's', 'o', 'n'] := rfl
    rw [heq, startsWithChars_append_both]
    exact hnj
  have hdrop : (fenceBare ++ u).drop 3 = u := by
    simp [fenceBare]
  show subFenceFuel (fenceBare ++ u).length (fenceBare ++ u) = _
  rw [hlen, subFenceFuel_succ, if_neg (by simp [hj]),
    if_pos (startsWithChars_self_append fenceBare u), hdrop]
  refine subFenceFuel_fuel_irrel _ _ _ ?_ le_rfl
  have := (List.dropWhile_sublist (l := u) isPySpace).length_le
  omega

/-- C4 amended: after stripping, a response beginning with a triple-backtick
fence does not have arbitrary-tag fence markers removed; the regex deletes
occurrences of "```json" plus trailing whitespace and of bare "```" plus
trailing whitespace, the "```json" alternative tried first.  Universally
over fence lines "```TAG\n" whose tag is backtick- and whitespace-free: an
empty tag and the exact tag "json" are deleted entirely; a tag not starting
a "json" match keeps its full text in place with only the backticks gone; a
longer tag beginning "json" keeps exactly its part after "json".  Hence the
spec's fenced-json example parses to the rice record, an untagged fence
parses too, and the residues left by the tags "python" and "jsonp" make the
JSON parse fail, so the analysis errors. -/
theorem fence_regex_behavior :
    (∀ body : List Char,
      subFence (fenceBare ++ '\n' :: body) = subFence (body.dropWhile isPySpace)) ∧
    (∀ body : List Char,
      subFence (fenceJson ++ '\n' :: body) = subFence (body.dropWhile isPySpace)) ∧
    (∀ tag body : List Char, tag ≠ [] →
      (∀ c ∈ tag, (c == backtick) = false ∧ isPySpace c = false) →
      startsWithChars ['j', 's', 'o', 'n'] (tag ++ '\n' :: body) = false →
      subFence (fenceBare ++ (tag ++ '\n' :: body)) = tag ++ '\n' :: subFence body) ∧
    (∀ tt body : List Char, tt ≠ [] →
      (∀ c ∈ tt, (c == backtick) = false ∧ isPySpace c = false) →
      subFence (fenceJson ++ (tt ++ '\n' :: body)) = tt ++ '\n' :: subFence body) ∧
    parse_ai_response "```json\n\x7b\"food_name\":\"rice\",\"calories\":200\x7d\n```" =
      .ok (.obj [("food_name", .str "rice"), ("calories", .num 200)]) ∧
    parse_ai_response "```\n\x7b\"food_name\":\"rice\",\"calories\":200\x7d\n```" =
      .ok (.obj [("food_name", .str "rice"), ("calories", .num 200)]) ∧
    parse_ai_response "```python\n\x7b\"calories\":200\x7d\n```" = .error .parseError ∧
    parse_ai_response "```jsonp\n\x7b\"calories\":200\x7d\n```" = .error .parseError := by
  have hcopyTail : ∀ (tag body : List Char),
      (∀ c ∈ tag, (c == backtick) = false ∧ isPySpace c = false) →
      subFence (tag ++ '\n' :: body) = tag ++ '\n' :: subFence body := by
    intro tag body htag
    have h := subFence_copy_append (tag ++ ['\n']) body (by
      intro d hd
      rcases List.mem_append.mp hd with h1 | h1
      · exact (htag d h1).1
      · have : d = '\n' := by simpa using h1
        subst this
        rfl)
    simpa [List.append_assoc] using h
  refine ⟨?_, ?_, ?_, ?_, rfl, rfl, rfl, rfl⟩
  · intro body
    exact subFence_bare_step ('\n' :: body) rfl
  · intro body
    exact subFence_json_step ('\n' :: body)
  · intro tag body hne htag hnj
    rw [subFence_bare_step (tag ++ '\n' :: body) hnj]
    cases tag with
    | nil => exact absurd rfl hne
    | cons c tag' =>
      have hds : ((c :: tag' ++ '\n' :: body).dropWhile isPySpace) =
          c :: tag' ++ '\n' :: body := by
        simp [List.dropWhile, (htag c (by simp)).2]
      rw [hds]
      exact hcopyTail (c :: tag') body htag
  · intro tt body hne htt
    rw [subFence_json_step (tt ++ '\n' :: body)]
    cases tt with
    | nil => exact absurd rfl hne
    | cons c tt' =>
      have hds : ((c :: tt' ++ '\n' :: body).dropWhile isPySpace) =
          c :: tt' ++ '\n' :: body := by
        simp [List.dropWhile, (htt c (by simp)).2]
      rw [hds]
      exact hcopyTail (c :: tt') body htt

/-- Witness for the amended C4 at the concrete tags of the claim: the tag
"python" is kept in full (only the backticks go), and of the json-prefixed
tag "jsonp" exactly the "p" remains after the "```json" alternative fires. -/
theorem fence_regex_behavior_inst :
    subFence (fenceBare ++ (("python").data ++ '\n' :: ("\x7b\"calories\":200\x7d").data)) =
      ("python").data ++ '\n' :: subFence (("\x7b\"calories\":200\x7d").data) ∧
    subFence (fenceJson ++ (("p").data ++ '\n' :: ("\x7b\"calories\":200\x7d").data)) =
      ("p").data ++ '\n' :: subFence (("\x7b\"calories\":200\x7d").data) :=
  ⟨fence_regex_behavior.2.2.1 ("python").data ("\x7b\"calories\":200\x7d").data
      (by decide) (by decide) (by decide),
   fence_regex_behavior.2.2.2.1 ("p").data ("\x7b\"calories\":200\x7d").data
      (by decide) (by decide)⟩
